import Mathlib

/-!
Shallow embedding of `calculoexoticas.py`: the standard-normal CDF helper
`norm_cdf` and the barrier-option pricer `black_scholes_barrier_option`.
Real numbers model the Python floats; Python's runtime exceptions
(ZeroDivisionError from `/`, ValueError from `math.log`/`math.sqrt` on bad
domains, and the explicit ValueError raised for bad selectors) are modelled
with an `Except` result. The two math-library failure modes are collapsed
into the single `DomainError` kind, matching the error taxonomy the
specification assigns them; the explicit selector failure is
`InvalidSelector`, carrying the message text of the `raise` statement.
-/

open MeasureTheory intervalIntegral Real

/-- Error kinds observable from `black_scholes_barrier_option`. -/
inductive Err where
  | DomainError : Err
  | InvalidSelector : (msg : String) → Err
  deriving DecidableEq

/-- The message of the `raise ValueError(...)` in the `else` branch of
`black_scholes_barrier_option` (apostrophes written as `\x27`). -/
def invalid_selector_msg : String :=
  "Invalid option or barrier type. Use \x27call\x27 or \x27put\x27 for option_type and \x27in\x27 or \x27out\x27 for barrier_type."

/-- Python float division `a / b`: raises `ZeroDivisionError` when `b == 0`. -/
noncomputable def pyDiv (a b : ℝ) : Except Err ℝ :=
  if b = 0 then .error .DomainError else .ok (a / b)

/-- Python `math.log a`: raises `ValueError` (math domain error) when `a <= 0`. -/
noncomputable def pyLog (a : ℝ) : Except Err ℝ :=
  if a ≤ 0 then .error .DomainError else .ok (Real.log a)

/-- Python `math.sqrt a`: raises `ValueError` (math domain error) when `a < 0`. -/
noncomputable def pySqrt (a : ℝ) : Except Err ℝ :=
  if a < 0 then .error .DomainError else .ok (Real.sqrt a)

/-- The Gauss error function, the mathematical function computed by
Python's `math.erf`: `erf x = (2 / √π) · ∫ t in 0..x, exp (-t²)`. -/
noncomputable def erf (x : ℝ) : ℝ :=
  (2 / Real.sqrt π) * ∫ t in (0:ℝ)..x, Real.exp (-t ^ 2)

/-- `norm_cdf` from the source: `(1.0 + math.erf(x / math.sqrt(2.0))) / 2.0`. -/
noncomputable def norm_cdf (x : ℝ) : ℝ :=
  (1 + erf (x / Real.sqrt 2)) / 2

/-- `black_scholes_barrier_option` from the source, statement by statement:
the intermediates `d1, d2, lambda_, x1, y1, y` are computed (in source
order, with each division, logarithm and square root able to fail) before
the selector strings are examined; then one of the four branch expressions
is returned, or the `ValueError` for an invalid selector pair. -/
noncomputable def black_scholes_barrier_option
    (S K T r sigma H : ℝ) (option_type barrier_type : String) : Except Err ℝ := do
  let q1 ← pyDiv S K
  let l1 ← pyLog q1
  let sqT ← pySqrt T
  let d1 ← pyDiv (l1 + (r + 0.5 * sigma ^ 2) * T) (sigma * sqT)
  let d2 := d1 - sigma * sqT
  let lambda_ ← pyDiv (r + 0.5 * sigma ^ 2) (sigma ^ 2)
  let q2 ← pyDiv S H
  let l2 ← pyLog q2
  let t2 ← pyDiv l2 (sigma * sqT)
  let x1 := t2 + lambda_ * sigma * sqT
  let q3 ← pyDiv H S
  let l3 ← pyLog q3
  let t3 ← pyDiv l3 (sigma * sqT)
  let y1 := t3 + lambda_ * sigma * sqT
  let q4 ← pyDiv (H ^ 2) (S * K)
  let l4 ← pyLog q4
  let y ← pyDiv (l4 + (r + 0.5 * sigma ^ 2) * T) (sigma * sqT)
  if option_type = "call" ∧ barrier_type = "out" then
    return (S * norm_cdf d1 - K * Real.exp (-r * T) * norm_cdf d2) -
      (H * norm_cdf (y1 - sigma * sqT) - H * norm_cdf (-y1 + sigma * sqT) -
        S * norm_cdf (-d1 + 2 * lambda_ * sigma * sqT) +
        K * Real.exp (-r * T) * norm_cdf (-d2 + 2 * lambda_ * sigma * sqT))
  else if option_type = "call" ∧ barrier_type = "in" then
    return H * norm_cdf (y1 - sigma * sqT) - H * norm_cdf (-y1 + sigma * sqT) -
      S * norm_cdf (-d1 + 2 * lambda_ * sigma * sqT) +
      K * Real.exp (-r * T) * norm_cdf (-d2 + 2 * lambda_ * sigma * sqT)
  else if option_type = "put" ∧ barrier_type = "out" then
    return (K * Real.exp (-r * T) * norm_cdf (-d2) - S * norm_cdf (-d1)) -
      (H * norm_cdf (-y1 + sigma * sqT) - H * norm_cdf (y1 - sigma * sqT) -
        S * norm_cdf (d1 - 2 * lambda_ * sigma * sqT) +
        K * Real.exp (-r * T) * norm_cdf (d2 - 2 * lambda_ * sigma * sqT))
  else if option_type = "put" ∧ barrier_type = "in" then
    return H * norm_cdf (-y1 + sigma * sqT) - H * norm_cdf (y1 - sigma * sqT) -
      S * norm_cdf (d1 - 2 * lambda_ * sigma * sqT) +
      K * Real.exp (-r * T) * norm_cdf (d2 - 2 * lambda_ * sigma * sqT)
  else
    .error (.InvalidSelector invalid_selector_msg)

/-- The intermediate `d1` as a plain real value. -/
noncomputable def d1_val (S K T r sigma : ℝ) : ℝ :=
  (Real.log (S / K) + (r + 0.5 * sigma ^ 2) * T) / (sigma * Real.sqrt T)

/-- The intermediate `d2` as a plain real value. -/
noncomputable def d2_val (S K T r sigma : ℝ) : ℝ :=
  d1_val S K T r sigma - sigma * Real.sqrt T

/-- The intermediate `lambda_` as a plain real value. -/
noncomputable def lambda_val (r sigma : ℝ) : ℝ :=
  (r + 0.5 * sigma ^ 2) / sigma ^ 2

/-- The intermediate `y1` as a plain real value. -/
noncomputable def y1_val (S T r sigma H : ℝ) : ℝ :=
  Real.log (H / S) / (sigma * Real.sqrt T) + lambda_val r sigma * sigma * Real.sqrt T

/-- The `'call','out'` branch expression as a plain real value. -/
noncomputable def call_out_val (S K T r sigma H : ℝ) : ℝ :=
  (S * norm_cdf (d1_val S K T r sigma) -
      K * Real.exp (-r * T) * norm_cdf (d2_val S K T r sigma)) -
    (H * norm_cdf (y1_val S T r sigma H - sigma * Real.sqrt T) -
      H * norm_cdf (-y1_val S T r sigma H + sigma * Real.sqrt T) -
      S * norm_cdf (-d1_val S K T r sigma + 2 * lambda_val r sigma * sigma * Real.sqrt T) +
      K * Real.exp (-r * T) *
        norm_cdf (-d2_val S K T r sigma + 2 * lambda_val r sigma * sigma * Real.sqrt T))

/-- The `'call','in'` branch expression as a plain real value. -/
noncomputable def call_in_val (S K T r sigma H : ℝ) : ℝ :=
  H * norm_cdf (y1_val S T r sigma H - sigma * Real.sqrt T) -
    H * norm_cdf (-y1_val S T r sigma H + sigma * Real.sqrt T) -
    S * norm_cdf (-d1_val S K T r sigma + 2 * lambda_val r sigma * sigma * Real.sqrt T) +
    K * Real.exp (-r * T) *
      norm_cdf (-d2_val S K T r sigma + 2 * lambda_val r sigma * sigma * Real.sqrt T)

/-- The `'put','out'` branch expression as a plain real value. -/
noncomputable def put_out_val (S K T r sigma H : ℝ) : ℝ :=
  (K * Real.exp (-r * T) * norm_cdf (-d2_val S K T r sigma) -
      S * norm_cdf (-d1_val S K T r sigma)) -
    (H * norm_cdf (-y1_val S T r sigma H + sigma * Real.sqrt T) -
      H * norm_cdf (y1_val S T r sigma H - sigma * Real.sqrt T) -
      S * norm_cdf (d1_val S K T r sigma - 2 * lambda_val r sigma * sigma * Real.sqrt T) +
      K * Real.exp (-r * T) *
        norm_cdf (d2_val S K T r sigma - 2 * lambda_val r sigma * sigma * Real.sqrt T))

/-- The `'put','in'` branch expression as a plain real value. -/
noncomputable def put_in_val (S K T r sigma H : ℝ) : ℝ :=
  H * norm_cdf (-y1_val S T r sigma H + sigma * Real.sqrt T) -
    H * norm_cdf (y1_val S T r sigma H - sigma * Real.sqrt T) -
    S * norm_cdf (d1_val S K T r sigma - 2 * lambda_val r sigma * sigma * Real.sqrt T) +
    K * Real.exp (-r * T) *
      norm_cdf (d2_val S K T r sigma - 2 * lambda_val r sigma * sigma * Real.sqrt T)

/-- The vanilla Black-Scholes call price `S·N(d1) − K·e^(−rT)·N(d2)`. -/
noncomputable def vanilla_call (S K T r sigma : ℝ) : ℝ :=
  S * norm_cdf (d1_val S K T r sigma) -
    K * Real.exp (-r * T) * norm_cdf (d2_val S K T r sigma)

/-- The vanilla Black-Scholes put price `K·e^(−rT)·N(−d2) − S·N(−d1)`. -/
noncomputable def vanilla_put (S K T r sigma : ℝ) : ℝ :=
  K * Real.exp (-r * T) * norm_cdf (-d2_val S K T r sigma) -
    S * norm_cdf (-d1_val S K T r sigma)

/-- Validity of the `(option_type, barrier_type)` selector pair. -/
def valid_selectors (option_type barrier_type : String) : Prop :=
  (option_type = "call" ∨ option_type = "put") ∧
    (barrier_type = "in" ∨ barrier_type = "out")

instance (ot bt : String) : Decidable (valid_selectors ot bt) := by
  unfold valid_selectors; infer_instance

/-- Variant of `black_scholes_barrier_option` with the computations of the
unused intermediates `x1` and `y` removed; everything else is unchanged. -/
noncomputable def black_scholes_barrier_option_no_xy
    (S K T r sigma H : ℝ) (option_type barrier_type : String) : Except Err ℝ := do
  let q1 ← pyDiv S K
  let l1 ← pyLog q1
  let sqT ← pySqrt T
  let d1 ← pyDiv (l1 + (r + 0.5 * sigma ^ 2) * T) (sigma * sqT)
  let d2 := d1 - sigma * sqT
  let lambda_ ← pyDiv (r + 0.5 * sigma ^ 2) (sigma ^ 2)
  let q3 ← pyDiv H S
  let l3 ← pyLog q3
  let t3 ← pyDiv l3 (sigma * sqT)
  let y1 := t3 + lambda_ * sigma * sqT
  if option_type = "call" ∧ barrier_type = "out" then
    return (S * norm_cdf d1 - K * Real.exp (-r * T) * norm_cdf d2) -
      (H * norm_cdf (y1 - sigma * sqT) - H * norm_cdf (-y1 + sigma * sqT) -
        S * norm_cdf (-d1 + 2 * lambda_ * sigma * sqT) +
        K * Real.exp (-r * T) * norm_cdf (-d2 + 2 * lambda_ * sigma * sqT))
  else if option_type = "call" ∧ barrier_type = "in" then
    return H * norm_cdf (y1 - sigma * sqT) - H * norm_cdf (-y1 + sigma * sqT) -
      S * norm_cdf (-d1 + 2 * lambda_ * sigma * sqT) +
      K * Real.exp (-r * T) * norm_cdf (-d2 + 2 * lambda_ * sigma * sqT)
  else if option_type = "put" ∧ barrier_type = "out" then
    return (K * Real.exp (-r * T) * norm_cdf (-d2) - S * norm_cdf (-d1)) -
      (H * norm_cdf (-y1 + sigma * sqT) - H * norm_cdf (y1 - sigma * sqT) -
        S * norm_cdf (d1 - 2 * lambda_ * sigma * sqT) +
        K * Real.exp (-r * T) * norm_cdf (d2 - 2 * lambda_ * sigma * sqT))
  else if option_type = "put" ∧ barrier_type = "in" then
    return H * norm_cdf (-y1 + sigma * sqT) - H * norm_cdf (y1 - sigma * sqT) -
      S * norm_cdf (d1 - 2 * lambda_ * sigma * sqT) +
      K * Real.exp (-r * T) * norm_cdf (d2 - 2 * lambda_ * sigma * sqT)
  else
    .error (.InvalidSelector invalid_selector_msg)

set_option maxHeartbeats 2000000 in
/-- With positive numeric inputs, the `'call','out'` call evaluates to the
branch value. -/
theorem bso_call_out_eval (S K T r sigma H : ℝ) (hS : 0 < S) (hK : 0 < K)
    (hT : 0 < T) (hsig : 0 < sigma) (hH : 0 < H) :
    black_scholes_barrier_option S K T r sigma H "call" "out" =
      .ok (call_out_val S K T r sigma H) := by
  simp only [black_scholes_barrier_option, pyDiv, pyLog, pySqrt,
    hS.ne', hK.ne', (div_pos hS hK).not_le, not_lt.mpr hT.le,
    (mul_pos hsig (Real.sqrt_pos.mpr hT)).ne', (pow_pos hsig 2).ne',
    hH.ne', (div_pos hS hH).not_le, (div_pos hH hS).not_le,
    (mul_pos hS hK).ne', (div_pos (pow_pos hH 2) (mul_pos hS hK)).not_le,
    if_neg, ite_false, if_false, bind, Except.bind]
  rw [if_pos (by decide : True ∧ True)]
  simp only [call_out_val, d1_val, d2_val, lambda_val, y1_val]
  rfl

set_option maxHeartbeats 2000000 in
/-- With positive numeric inputs, the `'call','in'` call evaluates to the
branch value. -/
theorem bso_call_in_eval (S K T r sigma H : ℝ) (hS : 0 < S) (hK : 0 < K)
    (hT : 0 < T) (hsig : 0 < sigma) (hH : 0 < H) :
    black_scholes_barrier_option S K T r sigma H "call" "in" =
      .ok (call_in_val S K T r sigma H) := by
  simp only [black_scholes_barrier_option, pyDiv, pyLog, pySqrt,
    hS.ne', hK.ne', (div_pos hS hK).not_le, not_lt.mpr hT.le,
    (mul_pos hsig (Real.sqrt_pos.mpr hT)).ne', (pow_pos hsig 2).ne',
    hH.ne', (div_pos hS hH).not_le, (div_pos hH hS).not_le,
    (mul_pos hS hK).ne', (div_pos (pow_pos hH 2) (mul_pos hS hK)).not_le,
    if_neg, ite_false, if_false, bind, Except.bind]
  rw [if_neg (by decide : ¬ (True ∧ ("in" : String) = "out")),
    if_pos (by decide : True ∧ True)]
  simp only [call_in_val, d1_val, d2_val, lambda_val, y1_val]
  rfl

set_option maxHeartbeats 2000000 in
/-- With positive numeric inputs, the `'put','out'` call evaluates to the
branch value. -/
theorem bso_put_out_eval (S K T r sigma H : ℝ) (hS : 0 < S) (hK : 0 < K)
    (hT : 0 < T) (hsig : 0 < sigma) (hH : 0 < H) :
    black_scholes_barrier_option S K T r sigma H "put" "out" =
      .ok (put_out_val S K T r sigma H) := by
  simp only [black_scholes_barrier_option, pyDiv, pyLog, pySqrt,
    hS.ne', hK.ne', (div_pos hS hK).not_le, not_lt.mpr hT.le,
    (mul_pos hsig (Real.sqrt_pos.mpr hT)).ne', (pow_pos hsig 2).ne',
    hH.ne', (div_pos hS hH).not_le, (div_pos hH hS).not_le,
    (mul_pos hS hK).ne', (div_pos (pow_pos hH 2) (mul_pos hS hK)).not_le,
    if_neg, ite_false, if_false, bind, Except.bind]
  rw [if_neg (by decide : ¬ (("put" : String) = "call" ∧ True)),
    if_neg (by decide : ¬ (("put" : String) = "call" ∧ ("out" : String) = "in")),
    if_pos (by decide : True ∧ True)]
  simp only [put_out_val, d1_val, d2_val, lambda_val, y1_val]
  rfl

set_option maxHeartbeats 2000000 in
/-- With positive numeric inputs, the `'put','in'` call evaluates to the
branch value. -/
theorem bso_put_in_eval (S K T r sigma H : ℝ) (hS : 0 < S) (hK : 0 < K)
    (hT : 0 < T) (hsig : 0 < sigma) (hH : 0 < H) :
    black_scholes_barrier_option S K T r sigma H "put" "in" =
      .ok (put_in_val S K T r sigma H) := by
  simp only [black_scholes_barrier_option, pyDiv, pyLog, pySqrt,
    hS.ne', hK.ne', (div_pos hS hK).not_le, not_lt.mpr hT.le,
    (mul_pos hsig (Real.sqrt_pos.mpr hT)).ne', (pow_pos hsig 2).ne',
    hH.ne', (div_pos hS hH).not_le, (div_pos hH hS).not_le,
    (mul_pos hS hK).ne', (div_pos (pow_pos hH 2) (mul_pos hS hK)).not_le,
    if_neg, ite_false, if_false, bind, Except.bind]
  rw [if_neg (by decide : ¬ (("put" : String) = "call" ∧ ("in" : String) = "out")),
    if_neg (by decide : ¬ (("put" : String) = "call" ∧ True)),
    if_neg (by decide : ¬ (True ∧ ("in" : String) = "out")),
    if_pos (by decide : True ∧ True)]
  simp only [put_in_val, d1_val, d2_val, lambda_val, y1_val]
  rfl

set_option maxHeartbeats 2000000 in
/-- With positive numeric inputs and an invalid selector pair, the call
evaluates to the `InvalidSelector` error. -/
theorem bso_invalid_eval (S K T r sigma H : ℝ) (ot bt : String)
    (hS : 0 < S) (hK : 0 < K) (hT : 0 < T) (hsig : 0 < sigma) (hH : 0 < H)
    (hv : ¬ valid_selectors ot bt) :
    black_scholes_barrier_option S K T r sigma H ot bt =
      .error (.InvalidSelector invalid_selector_msg) := by
  have hco : ¬ (ot = "call" ∧ bt = "out") := fun h => hv ⟨Or.inl h.1, Or.inr h.2⟩
  have hci : ¬ (ot = "call" ∧ bt = "in") := fun h => hv ⟨Or.inl h.1, Or.inl h.2⟩
  have hpo : ¬ (ot = "put" ∧ bt = "out") := fun h => hv ⟨Or.inr h.1, Or.inr h.2⟩
  have hpi : ¬ (ot = "put" ∧ bt = "in") := fun h => hv ⟨Or.inr h.1, Or.inl h.2⟩
  simp only [black_scholes_barrier_option, pyDiv, pyLog, pySqrt,
    hS.ne', hK.ne', (div_pos hS hK).not_le, not_lt.mpr hT.le,
    (mul_pos hsig (Real.sqrt_pos.mpr hT)).ne', (pow_pos hsig 2).ne',
    hH.ne', (div_pos hS hH).not_le, (div_pos hH hS).not_le,
    (mul_pos hS hK).ne', (div_pos (pow_pos hH 2) (mul_pos hS hK)).not_le,
    if_neg, ite_false, if_false, bind, Except.bind]
  rw [if_neg hco, if_neg hci, if_neg hpo, if_neg hpi]

/-- The Gaussian integrand is continuous. -/
theorem gauss_continuous : Continuous fun t : ℝ => Real.exp (-t ^ 2) :=
  Real.continuous_exp.comp (continuous_pow 2).neg

/-- The Gaussian integrand is interval integrable on any interval. -/
theorem gauss_intervalIntegrable (a b : ℝ) :
    IntervalIntegrable (fun t : ℝ => Real.exp (-t ^ 2)) volume a b :=
  gauss_continuous.intervalIntegrable a b

/-- `erf 0 = 0`. -/
theorem erf_zero : erf 0 = 0 := by
  unfold erf
  rw [intervalIntegral.integral_same, mul_zero]

/-- The error function is monotone. -/
theorem erf_mono : Monotone erf := by
  intro x y hxy
  unfold erf
  have hadd := intervalIntegral.integral_add_adjacent_intervals
    (gauss_intervalIntegrable 0 x) (gauss_intervalIntegrable x y)
  have hnn : 0 ≤ ∫ t in x..y, Real.exp (-t ^ 2) :=
    intervalIntegral.integral_nonneg hxy fun u _ => (Real.exp_pos _).le
  have hc : (0:ℝ) ≤ 2 / Real.sqrt π := by positivity
  have h : (∫ t in (0:ℝ)..x, Real.exp (-t ^ 2)) ≤ ∫ t in (0:ℝ)..y, Real.exp (-t ^ 2) := by
    linarith
  exact mul_le_mul_of_nonneg_left h hc

/-- The error function is odd. -/
theorem erf_neg (x : ℝ) : erf (-x) = - erf x := by
  unfold erf
  have h1 : (∫ t in (0:ℝ)..x, Real.exp (-(-t) ^ 2)) =
      ∫ t in (-x)..(-(0:ℝ)), Real.exp (-t ^ 2) :=
    intervalIntegral.integral_comp_neg fun t => Real.exp (-t ^ 2)
  simp only [neg_sq, neg_zero] at h1
  have h3 : (∫ t in (0:ℝ)..(-x), Real.exp (-t ^ 2)) =
      - ∫ t in (-x)..(0:ℝ), Real.exp (-t ^ 2) :=
    intervalIntegral.integral_symm (-x) 0
  rw [h3, ← h1]
  ring

/-- The error function is bounded above by `1`. -/
theorem erf_le_one (x : ℝ) : erf x ≤ 1 := by
  rcases le_total x 0 with hx | hx
  · have := erf_mono hx
    rw [erf_zero] at this
    linarith
  · unfold erf
    have hfun : (fun t : ℝ => Real.exp (-t ^ 2)) = fun t : ℝ => Real.exp (-1 * t ^ 2) := by
      funext t; ring_nf
    have hint : IntegrableOn (fun t : ℝ => Real.exp (-t ^ 2)) (Set.Ioi 0) := by
      rw [hfun]
      exact (integrable_exp_neg_mul_sq one_pos).integrableOn
    have key : (∫ t in (0:ℝ)..x, Real.exp (-t ^ 2)) ≤ Real.sqrt π / 2 := by
      rw [intervalIntegral.integral_of_le hx]
      have h1 : (∫ t in Set.Ioc 0 x, Real.exp (-t ^ 2)) ≤
          ∫ t in Set.Ioi 0, Real.exp (-t ^ 2) := by
        refine setIntegral_mono_set hint ?_ ?_
        · filter_upwards with t using (Real.exp_pos _).le
        · exact Filter.Eventually.of_forall fun t ht => ht.1
      have h2 : (∫ t in Set.Ioi 0, Real.exp (-t ^ 2)) = Real.sqrt π / 2 := by
        rw [hfun]
        simpa using integral_gaussian_Ioi 1
      linarith
    have hs : 0 < Real.sqrt π := Real.sqrt_pos.mpr Real.pi_pos
    calc 2 / Real.sqrt π * ∫ t in (0:ℝ)..x, Real.exp (-t ^ 2) ≤
        2 / Real.sqrt π * (Real.sqrt π / 2) := by
          exact mul_le_mul_of_nonneg_left key (by positivity)
      _ = 1 := by field_simp

/-- `norm_cdf 0 = 1/2`. -/
theorem norm_cdf_zero : norm_cdf 0 = 1 / 2 := by
  unfold norm_cdf
  rw [zero_div, erf_zero]
  norm_num

/-- `norm_cdf` is monotone. -/
theorem norm_cdf_mono : Monotone norm_cdf := by
  intro x y hxy
  unfold norm_cdf
  have h2 : (0:ℝ) < Real.sqrt 2 := Real.sqrt_pos.mpr two_pos
  have := erf_mono ((div_le_div_iff_of_pos_right h2).mpr hxy)
  linarith

/-- `norm_cdf` is bounded above by `1`. -/
theorem norm_cdf_le_one (x : ℝ) : norm_cdf x ≤ 1 := by
  unfold norm_cdf
  have := erf_le_one (x / Real.sqrt 2)
  linarith

/-- The reflection identity for `norm_cdf`. -/
theorem norm_cdf_reflect (x : ℝ) : norm_cdf (-x) = 1 - norm_cdf x := by
  unfold norm_cdf
  rw [neg_div, erf_neg]
  ring

set_option maxHeartbeats 4000000 in
/-- Dropping the dead intermediates `x1` and `y` never changes the result:
whenever one of the two computation chains fails a guard, so does the other,
with the same `DomainError`, and on success the branch values agree. -/
theorem bso_no_xy_eq (S K T r sigma H : ℝ) (ot bt : String) :
    black_scholes_barrier_option S K T r sigma H ot bt =
      black_scholes_barrier_option_no_xy S K T r sigma H ot bt := by
  unfold black_scholes_barrier_option black_scholes_barrier_option_no_xy pyDiv pyLog pySqrt
  by_cases hK : K = 0
  · simp [bind, Except.bind, hK]
  by_cases hq1 : S / K ≤ 0
  · simp [bind, Except.bind, hK, hq1]
  by_cases hT : T < 0
  · simp [bind, Except.bind, hK, hq1, hT]
  by_cases hsig : sigma = 0
  · simp [bind, Except.bind, hK, hq1, hT, hsig]
  by_cases hsqT : Real.sqrt T = 0
  · simp [bind, Except.bind, hK, hq1, hT, hsig, hsqT]
  have hS : S ≠ 0 := fun h0 => hq1 (by rw [h0, zero_div])
  have hs2 : sigma ^ 2 ≠ 0 := pow_ne_zero 2 hsig
  by_cases hH : H = 0
  · simp [bind, Except.bind, hK, hq1, hT, hsig, hsqT, hs2, hH, hS]
  by_cases hq2 : S / H ≤ 0
  · have h0 : S / H < 0 := lt_of_le_of_ne hq2 (div_ne_zero hS hH)
    have hq3 : H / S ≤ 0 := by
      have h1 := inv_lt_zero.mpr h0
      rw [inv_div] at h1
      exact h1.le
    simp [bind, Except.bind, hK, hq1, hT, hsig, hsqT, hs2, hH, hS, hq2, hq3]
  have hq3 : ¬ (H / S ≤ 0) := by
    have h0 : 0 < S / H := not_le.mp hq2
    have h1 := inv_pos.mpr h0
    rw [inv_div] at h1
    exact not_le.mpr h1
  have hSKpos : 0 < S * K := by
    rcases div_pos_iff.mp (not_le.mp hq1) with ⟨h1, h2⟩ | ⟨h1, h2⟩
    · exact mul_pos h1 h2
    · exact mul_pos_of_neg_of_neg h1 h2
  have hSK : S * K ≠ 0 := hSKpos.ne'
  have hq4 : ¬ (H ^ 2 / (S * K) ≤ 0) :=
    not_le.mpr (div_pos (pow_two_pos_of_ne_zero hH) hSKpos)
  simp [bind, Except.bind, hK, hq1, hT, hsig, hsqT, hs2, hH, hS, hq2, hq3, hSK, hq4]

set_option maxHeartbeats 4000000 in
/-- If any of `sigma`, `T`, `S`, `K`, `H` is zero, the computation of the
intermediates fails (division by zero or logarithm of a non-positive
number) and the call returns the `DomainError`, for every selector pair. -/
theorem bso_domain_error (S K T r sigma H : ℝ) (ot bt : String)
    (h : sigma = 0 ∨ T = 0 ∨ S = 0 ∨ K = 0 ∨ H = 0) :
    black_scholes_barrier_option S K T r sigma H ot bt = .error .DomainError := by
  unfold black_scholes_barrier_option pyDiv pyLog pySqrt
  by_cases hK : K = 0
  · simp [bind, Except.bind, hK]
  by_cases hq1 : S / K ≤ 0
  · simp [bind, Except.bind, hK, hq1]
  by_cases hT : T < 0
  · simp [bind, Except.bind, hK, hq1, hT]
  by_cases hsig : sigma = 0
  · simp [bind, Except.bind, hK, hq1, hT, hsig]
  by_cases hsqT : Real.sqrt T = 0
  · simp [bind, Except.bind, hK, hq1, hT, hsig, hsqT]
  have hS : S ≠ 0 := fun h0 => hq1 (by rw [h0, zero_div])
  have hs2 : sigma ^ 2 ≠ 0 := pow_ne_zero 2 hsig
  have hTne : T ≠ 0 := fun h0 => hsqT (by rw [h0, Real.sqrt_zero])
  by_cases hH : H = 0
  · simp [bind, Except.bind, hK, hq1, hT, hsig, hsqT, hs2, hH, hS]
  rcases h with h | h | h | h | h
  · exact absurd h hsig
  · exact absurd h hTne
  · exact absurd h hS
  · exact absurd h hK
  · exact absurd h hH

/-- For every valid selector pair and positive numeric inputs the call
returns a value; shared by several claim theorems. -/
theorem bso_ok_of_valid (S K T r sigma H : ℝ) (ot bt : String)
    (hS : 0 < S) (hK : 0 < K) (hT : 0 < T) (hsig : 0 < sigma) (hH : 0 < H)
    (hv : valid_selectors ot bt) :
    ∃ v : ℝ, black_scholes_barrier_option S K T r sigma H ot bt = .ok v := by
  obtain ⟨ho, hb⟩ := hv
  rcases ho with ho | ho <;> rcases hb with hb | hb <;> subst ho <;> subst hb
  · exact ⟨_, bso_call_in_eval S K T r sigma H hS hK hT hsig hH⟩
  · exact ⟨_, bso_call_out_eval S K T r sigma H hS hK hT hsig hH⟩
  · exact ⟨_, bso_put_in_eval S K T r sigma H hS hK hT hsig hH⟩
  · exact ⟨_, bso_put_out_eval S K T r sigma H hS hK hT hsig hH⟩

/-- Claim C1: for every parameter set with `S,K,T,sigma,H > 0` and any `r`,
the `('call','in')` and `('call','out')` prices sum to the vanilla
Black-Scholes call `S·N(d1) − K·e^(−rT)·N(d2)`, and the `('put','in')` and
`('put','out')` prices sum to the vanilla put
`K·e^(−rT)·N(−d2) − S·N(−d1)`. -/
theorem C1_in_out_parity (S K T r sigma H : ℝ) (hS : 0 < S) (hK : 0 < K)
    (hT : 0 < T) (hsig : 0 < sigma) (hH : 0 < H) :
    black_scholes_barrier_option S K T r sigma H "call" "in" =
        .ok (call_in_val S K T r sigma H) ∧
      black_scholes_barrier_option S K T r sigma H "call" "out" =
        .ok (call_out_val S K T r sigma H) ∧
      call_in_val S K T r sigma H + call_out_val S K T r sigma H =
        vanilla_call S K T r sigma ∧
      black_scholes_barrier_option S K T r sigma H "put" "in" =
        .ok (put_in_val S K T r sigma H) ∧
      black_scholes_barrier_option S K T r sigma H "put" "out" =
        .ok (put_out_val S K T r sigma H) ∧
      put_in_val S K T r sigma H + put_out_val S K T r sigma H =
        vanilla_put S K T r sigma := by
  refine ⟨bso_call_in_eval S K T r sigma H hS hK hT hsig hH,
    bso_call_out_eval S K T r sigma H hS hK hT hsig hH, ?_,
    bso_put_in_eval S K T r sigma H hS hK hT hsig hH,
    bso_put_out_eval S K T r sigma H hS hK hT hsig hH, ?_⟩
  · unfold call_in_val call_out_val vanilla_call
    ring
  · unfold put_in_val put_out_val vanilla_put
    ring

/-- Witness for C1 at `S=K=T=r=sigma=H=1`. -/
theorem C1_in_out_parity_witness :
    black_scholes_barrier_option 1 1 1 1 1 1 "call" "in" =
        .ok (call_in_val 1 1 1 1 1 1) ∧
      black_scholes_barrier_option 1 1 1 1 1 1 "call" "out" =
        .ok (call_out_val 1 1 1 1 1 1) ∧
      call_in_val 1 1 1 1 1 1 + call_out_val 1 1 1 1 1 1 =
        vanilla_call 1 1 1 1 1 ∧
      black_scholes_barrier_option 1 1 1 1 1 1 "put" "in" =
        .ok (put_in_val 1 1 1 1 1 1) ∧
      black_scholes_barrier_option 1 1 1 1 1 1 "put" "out" =
        .ok (put_out_val 1 1 1 1 1 1) ∧
      put_in_val 1 1 1 1 1 1 + put_out_val 1 1 1 1 1 1 =
        vanilla_put 1 1 1 1 1 :=
  C1_in_out_parity 1 1 1 1 1 1 (by norm_num) (by norm_num) (by norm_num)
    (by norm_num) (by norm_num)

/-- Claim C2 counterexample: with the invalid selector `'straddle'` and
`T = 0` the function signals the domain error (raised while computing the
intermediates), not the invalid-selector error, so the selector check does
not come before the floating-point computation. -/
theorem C2_counterexample :
    black_scholes_barrier_option 1 1 0 1 1 1 "straddle" "in" =
        .error .DomainError ∧
      black_scholes_barrier_option 1 1 0 1 1 1 "straddle" "in" ≠
        .error (.InvalidSelector invalid_selector_msg) := by
  have h := bso_domain_error 1 1 0 1 1 1 "straddle" "in" (Or.inr (Or.inl rfl))
  refine ⟨h, ?_⟩
  rw [h]
  intro hc
  injection hc with hc2
  exact Err.noConfusion hc2

/-- Claim C2 (amended): with numeric inputs on which the intermediates are
defined (`S,K,T,sigma,H > 0`), an invalid selector pair signals the
`InvalidSelector` error — but the intermediates are computed first, so on
degenerate numeric inputs the domain error wins. -/
theorem C2_invalid_selector_after_algebra (S K T r sigma H : ℝ)
    (ot bt : String) (hS : 0 < S) (hK : 0 < K) (hT : 0 < T) (hsig : 0 < sigma)
    (hH : 0 < H) (hv : ¬ valid_selectors ot bt) :
    black_scholes_barrier_option S K T r sigma H ot bt =
      .error (.InvalidSelector invalid_selector_msg) :=
  bso_invalid_eval S K T r sigma H ot bt hS hK hT hsig hH hv

/-- Witness for the amended C2 at a concrete invalid selector. -/
theorem C2_invalid_selector_after_algebra_witness :
    black_scholes_barrier_option 1 1 1 1 1 1 "straddle" "in" =
      .error (.InvalidSelector invalid_selector_msg) :=
  C2_invalid_selector_after_algebra 1 1 1 1 1 1 "straddle" "in" (by norm_num)
    (by norm_num) (by norm_num) (by norm_num) (by norm_num) (by decide)

/-- Claim C3 (code bug): at the economically sensible input
`S=1, K=1, T=1, r=1, sigma=1, H=1/2` the `('call','in')` branch returns a
strictly negative number, contradicting the non-negativity the
specification asserts for all four branches. -/
theorem C3_negative_price_at_failing_input :
    ∃ v : ℝ, black_scholes_barrier_option 1 1 1 1 1 (1/2) "call" "in" =
        .ok v ∧ v < 0 := by
  refine ⟨call_in_val 1 1 1 1 1 (1/2),
    bso_call_in_eval 1 1 1 1 1 (1/2) (by norm_num) (by norm_num) (by norm_num)
      (by norm_num) (by norm_num), ?_⟩
  simp only [call_in_val, d2_val, y1_val, d1_val, lambda_val]
  norm_num [Real.sqrt_one, Real.log_one]
  set L := Real.log (1/2 : ℝ) with hL
  have hLval : L = - Real.log 2 := by rw [hL, one_div, Real.log_inv]
  have hLlt : L < -(1/2) := by rw [hLval]; linarith [Real.log_two_gt_d9]
  have hmono := norm_cdf_mono (show L + 3/2 - 1 ≤ -(3/2) + -L + 1 by linarith)
  have hhalf : (1/2 : ℝ) ≤ norm_cdf (3/2) := by
    rw [show (1/2 : ℝ) = norm_cdf 0 from norm_cdf_zero.symm]
    exact norm_cdf_mono (by norm_num)
  have hone : norm_cdf (5/2 : ℝ) ≤ 1 := norm_cdf_le_one _
  have hprod : Real.exp (-1) * norm_cdf (5/2 : ℝ) ≤ Real.exp (-1) * 1 :=
    mul_le_mul_of_nonneg_left hone (Real.exp_pos (-1)).le
  have hexp : Real.exp (-1) < 1/2 := by
    rw [Real.exp_neg]
    have h2 : (2:ℝ) < Real.exp 1 := by linarith [Real.exp_one_gt_d9]
    have := one_div_lt_one_div_of_lt two_pos h2
    rw [inv_eq_one_div]
    linarith
  linarith [hmono, hhalf, hone, hprod, hexp]

/-- Claim C4: with a valid selector pair, whenever `sigma = 0` or `T = 0`
(division by zero in `σ√T`) or `S = 0`, `K = 0` or `H = 0` (zero division
or logarithm of a non-positive number), the call signals the domain error
instead of returning a number. -/
theorem C4_domain_error_on_degenerate_inputs (S K T r sigma H : ℝ)
    (ot bt : String) (hv : valid_selectors ot bt)
    (h : sigma = 0 ∨ T = 0 ∨ S = 0 ∨ K = 0 ∨ H = 0) :
    black_scholes_barrier_option S K T r sigma H ot bt =
      .error .DomainError :=
  bso_domain_error S K T r sigma H ot bt h

/-- Witness for C4 at `T = 0` with the `('call','in')` selector. -/
theorem C4_domain_error_witness :
    black_scholes_barrier_option 1 2 0 1 1 1 "call" "in" =
      .error .DomainError :=
  C4_domain_error_on_degenerate_inputs 1 2 0 1 1 1 "call" "in"
    (by decide) (Or.inr (Or.inl rfl))

/-- Claim C5 counterexample: with the invalid pair `('call','foo')` but
`T = 0`, the function signals the domain error, not `InvalidSelector`, so
"invalid pair implies `InvalidSelector`" fails without a definedness
assumption on the numeric inputs. -/
theorem C5_counterexample :
    black_scholes_barrier_option 1 1 0 1 1 1 "call" "foo" =
        .error .DomainError ∧
      black_scholes_barrier_option 1 1 0 1 1 1 "call" "foo" ≠
        .error (.InvalidSelector invalid_selector_msg) := by
  have h := bso_domain_error 1 1 0 1 1 1 "call" "foo" (Or.inr (Or.inl rfl))
  refine ⟨h, ?_⟩
  rw [h]
  intro hc
  injection hc with hc2
  exact Err.noConfusion hc2

/-- Claim C5 (amended): for numeric inputs on which the intermediates are
defined (`S,K,T,sigma,H > 0`), the call signals `InvalidSelector` (with the
message naming the accepted literal sets) if and only if the selector pair
is outside the four valid combinations; in particular any `option_type`
outside `{'call','put'}` triggers it for every `barrier_type`. -/
theorem C5_selector_error_iff (S K T r sigma H : ℝ) (ot bt : String)
    (hS : 0 < S) (hK : 0 < K) (hT : 0 < T) (hsig : 0 < sigma) (hH : 0 < H) :
    (black_scholes_barrier_option S K T r sigma H ot bt =
        .error (.InvalidSelector invalid_selector_msg)) ↔
      ¬ valid_selectors ot bt := by
  constructor
  · intro h hv
    obtain ⟨v, hok⟩ := bso_ok_of_valid S K T r sigma H ot bt hS hK hT hsig hH hv
    rw [hok] at h
    exact Except.noConfusion h
  · exact bso_invalid_eval S K T r sigma H ot bt hS hK hT hsig hH

/-- Witness for the amended C5 at the invalid selector `'straddle'`. -/
theorem C5_selector_error_iff_witness :
    (black_scholes_barrier_option 1 1 1 1 1 1 "straddle" "out" =
        .error (.InvalidSelector invalid_selector_msg)) ↔
      ¬ valid_selectors "straddle" "out" :=
  C5_selector_error_iff 1 1 1 1 1 1 "straddle" "out" (by norm_num)
    (by norm_num) (by norm_num) (by norm_num) (by norm_num)

/-- Claim C6: `norm_cdf x` is `(1 + erf (x / √2)) / 2` with `erf` the Gauss
error function, and `norm_cdf 0 = 0.5`. -/
theorem C6_norm_cdf_formula :
    (∀ x : ℝ, norm_cdf x = (1 + erf (x / Real.sqrt 2)) / 2) ∧
      norm_cdf 0 = 0.5 := by
  refine ⟨fun x => rfl, ?_⟩
  rw [norm_cdf_zero]
  norm_num

/-- Claim C7: `norm_cdf` is monotonically non-decreasing and satisfies the
reflection identity `norm_cdf (-x) = 1 - norm_cdf x`. -/
theorem C7_monotone_and_symmetric :
    (∀ x y : ℝ, x ≤ y → norm_cdf x ≤ norm_cdf y) ∧
      ∀ x : ℝ, norm_cdf (-x) = 1 - norm_cdf x :=
  ⟨fun _ _ h => norm_cdf_mono h, norm_cdf_reflect⟩

/-- Witness for C7 at `x = 0`, `y = 1`. -/
theorem C7_monotone_and_symmetric_witness :
    norm_cdf 0 ≤ norm_cdf 1 ∧ norm_cdf (-(1:ℝ)) = 1 - norm_cdf 1 :=
  ⟨C7_monotone_and_symmetric.1 0 1 (by norm_num),
    C7_monotone_and_symmetric.2 1⟩

/-- Claim C8: removing the computations of the unused intermediates `y`
(and `x1`) never changes the result of `black_scholes_barrier_option`; in
particular on every input on which the original returns a value, the
variant returns exactly the same value. -/
theorem C8_dead_intermediates_removable :
    ∀ (S K T r sigma H : ℝ) (ot bt : String),
      black_scholes_barrier_option S K T r sigma H ot bt =
        black_scholes_barrier_option_no_xy S K T r sigma H ot bt :=
  bso_no_xy_eq

/-- Claim C9: with `S,K,T,sigma,H > 0`, any `r`, and a valid selector pair,
the call reaches no error branch and returns a real value. -/
theorem C9_no_error_on_valid_inputs (S K T r sigma H : ℝ) (ot bt : String)
    (hS : 0 < S) (hK : 0 < K) (hT : 0 < T) (hsig : 0 < sigma) (hH : 0 < H)
    (hv : valid_selectors ot bt) :
    ∃ v : ℝ, black_scholes_barrier_option S K T r sigma H ot bt = .ok v :=
  bso_ok_of_valid S K T r sigma H ot bt hS hK hT hsig hH hv

/-- Witness for C9 at a concrete valid input. -/
theorem C9_no_error_on_valid_inputs_witness :
    ∃ v : ℝ, black_scholes_barrier_option 2 1 1 0 1 1 "put" "out" = .ok v :=
  C9_no_error_on_valid_inputs 2 1 1 0 1 1 "put" "out" (by norm_num)
    (by norm_num) (by norm_num) (by norm_num) (by norm_num) (by decide)

/-- Claim C10: `black_scholes_barrier_option` and `norm_cdf` are
deterministic pure functions of their arguments: equal inputs give equal
results, and in this embedding a call is a value (an `Except` result),
with no effect other than that value. -/
theorem C10_deterministic_pure :
    (∀ (S K T r sigma H S2 K2 T2 r2 sigma2 H2 : ℝ) (ot bt ot2 bt2 : String),
        S = S2 → K = K2 → T = T2 → r = r2 → sigma = sigma2 → H = H2 →
        ot = ot2 → bt = bt2 →
        black_scholes_barrier_option S K T r sigma H ot bt =
          black_scholes_barrier_option S2 K2 T2 r2 sigma2 H2 ot2 bt2) ∧
      ∀ x y : ℝ, x = y → norm_cdf x = norm_cdf y := by
  constructor
  · intro S K T r sigma H S2 K2 T2 r2 sigma2 H2 ot bt ot2 bt2 h1 h2 h3 h4 h5 h6 h7 h8
    subst h1; subst h2; subst h3; subst h4; subst h5; subst h6; subst h7; subst h8
    rfl
  · intro x y h
    rw [h]

/-- Witness for C10 at a concrete repeated input. -/
theorem C10_deterministic_pure_witness :
    black_scholes_barrier_option 1 1 1 1 1 1 "call" "out" =
        black_scholes_barrier_option 1 1 1 1 1 1 "call" "out" ∧
      norm_cdf 0 = norm_cdf 0 :=
  ⟨C10_deterministic_pure.1 1 1 1 1 1 1 1 1 1 1 1 1 "call" "out" "call" "out"
      rfl rfl rfl rfl rfl rfl rfl rfl,
    C10_deterministic_pure.2 0 0 rfl⟩
